import Mathlib

/-!
Shallow embedding of the image-uploader application (Express server,
multer upload middleware configuration, PocketBase-backed metadata store,
and the browser-side gallery renderer), together with theorems checking
the specification's claims against it.

Sources embedded:
- `src/app/public/src/main.js` (front-end gallery: `loadImages`,
  `displayImages`, `escapeHtml`; server: multer `storage.filename`,
  `fileFilter`, `MAX_FILE_SIZE`, `app.post('/upload')`,
  `app.get('/api/images')`).
External collaborators (multer/busboy streaming order, the Express default
error handler, PocketBase `getFullList` sorting, DOM text-node
serialization, Node's `path.extname`) are modelled from their documented
behavior where the repository code invokes them.
-/

namespace ImageUploader

/-! ## Node `path.extname` (posix)

The server calls `path.extname(file.originalname)`. Model of Node's posix
`extname`: the extension is the slice of the basename (the part after the
last `/`, ignoring trailing slashes) from its last `.` to the end, except
that a dot in the leading position of the basename (hidden files such as
`.bashrc`) and the basename `..` yield the empty extension. -/

/-- The basename of the path (trailing slashes ignored), reversed: skip
trailing `/`, then take up to the next `/` from the end. -/
def baseRevOf (p : List Char) : List Char :=
  (p.reverse.dropWhile (fun c => c == '/')).takeWhile (fun c => c != '/')

def extnameChars (p : List Char) : List Char :=
  let baseRev := baseRevOf p
  let afterDotRev := baseRev.takeWhile (fun c => c != '.')
  if afterDotRev.length = baseRev.length then []
  else if afterDotRev.length + 1 = baseRev.length then []
  else if baseRev = ['.', '.'] then []
  else '.' :: afterDotRev.reverse

def extname (p : String) : String :=
  ⟨extnameChars p.data⟩

/-! ## Multer configuration from `main.js` -/

/-- `MAX_FILE_SIZE = 10 * 1024 * 1024` (10 MiB), from `main.js`. -/
def MAX_FILE_SIZE : Nat := 10 * 1024 * 1024

/-- Allowed MIME types, from `fileFilter` in `main.js`. -/
def allowedTypes : List String := ["image/jpeg", "image/jpg", "image/png", "image/gif"]

/-- Result of the multer `fileFilter` callback: `cb(null, true)` accepts,
`cb(new Error(msg), false)` rejects with message `msg`. -/
inductive FilterDecision where
  | accept
  | reject (msg : String)
  deriving DecidableEq

/-- The `fileFilter` from `main.js`: accept when the declared MIME type is
in `allowedTypes`, otherwise reject with the descriptive error. -/
def fileFilter (mimetype : String) : FilterDecision :=
  if allowedTypes.contains mimetype then
    FilterDecision.accept
  else
    FilterDecision.reject "Invalid file type. Only JPG, PNG, and GIF are allowed."

/-- The `storage.filename` callback from `main.js`:
`Date.now() + '-' + Math.round(Math.random() * 1E9)` followed by
`path.extname(file.originalname)`. `now` models `Date.now()` (millisecond
timestamp) and `rand` models the rounded random draw. -/
def storageFilename (now rand : Nat) (originalname : String) : String :=
  toString now ++ "-" ++ toString rand ++ extname originalname

/-- A file field of an inbound multipart request, as busboy/multer expose
it: original client filename, declared MIME type, and the body size in
bytes. -/
structure UploadedFile where
  originalname : String
  mimetype : String
  size : Nat
  deriving DecidableEq

/-- `req.file` after multer stored the upload: the generated storage
filename alongside the original metadata. -/
structure StoredFile where
  originalname : String
  mimetype : String
  filename : String
  size : Nat
  deriving DecidableEq

/-- Outcome of the `upload.single('image')` middleware for one request. -/
inductive MulterOutcome where
  /-- No file field was present; control reaches the route handler with
  `req.file` undefined. -/
  | noFile
  /-- The file passed the filter and the size limit and was written to
  disk; control reaches the route handler with `req.file` set. -/
  | fileAccepted (f : StoredFile)
  /-- `fileFilter` rejected: multer forwards the filter's error to Express
  before any byte of the body is streamed to storage. -/
  | filterError (msg : String)
  /-- The body exceeded `limits.fileSize`: multer aborts the write, removes
  the partial file, and forwards a `LIMIT_FILE_SIZE` error ("File too
  large") to Express. -/
  | sizeError
  deriving DecidableEq

/-- Durable disk state: the files in the uploads directory, as
filename--size pairs. -/
abbrev DiskState := List (String × Nat)

/-- Model of the `upload.single('image')` middleware configured in
`main.js` (storage, `limits: { fileSize: MAX_FILE_SIZE }`, `fileFilter`),
following multer's processing order: the filter is consulted when the file
headers arrive, before any body byte is streamed to disk; an accepted
stream is written under the generated filename unless it exceeds the size
limit, in which case the partial file is removed again. The result is the
middleware outcome together with the durable disk state afterwards. -/
def multerSingle (disk : DiskState) (reqFile : Option UploadedFile)
    (now rand : Nat) : MulterOutcome × DiskState :=
  match reqFile with
  | none => (MulterOutcome.noFile, disk)
  | some f =>
    match fileFilter f.mimetype with
    | FilterDecision.reject msg => (MulterOutcome.filterError msg, disk)
    | FilterDecision.accept =>
      if f.size > MAX_FILE_SIZE then
        (MulterOutcome.sizeError, disk)
      else
        let fname := storageFilename now rand f.originalname
        (MulterOutcome.fileAccepted ⟨f.originalname, f.mimetype, fname, f.size⟩,
         (fname, f.size) :: disk)

/-! ## The upload route and the metadata store -/

/-- An image metadata record as stored in the PocketBase `images`
collection: the three client fields plus the store-assigned `id`,
`created`, `updated`. Timestamps are modelled as naturals preserving
their order. -/
structure ImageRecord where
  id : String
  name : String
  location : String
  mime_type : String
  created : Nat
  updated : Nat
  deriving DecidableEq

/-- Outcome of the network call `pb.collection('images').create(...)`:
either the store assigns `id`/`created`/`updated`, or the call fails with
an error message. -/
inductive CreateResult where
  | ok (id : String) (created updated : Nat)
  | fail (message : String)
  deriving DecidableEq

/-- Model of `pb.collection('images').create(imageData)`: on success the
created record echoes the submitted fields with the store-assigned
metadata; on failure the store's error message is raised. -/
def pbCreate (res : CreateResult) (name location mime : String) :
    Except String ImageRecord :=
  match res with
  | CreateResult.ok id c u => Except.ok ⟨id, name, location, mime, c, u⟩
  | CreateResult.fail m => Except.error m

/-- Bodies of the HTTP responses the server can produce. -/
inductive ResponseBody where
  /-- `{ error }` — the 400 response of the upload route. -/
  | jsonErrorSimple (error : String)
  /-- `{ error, message }` — the 500 responses of both routes. -/
  | jsonErrorMsg (error : String) (message : String)
  /-- `{ success: true, message, data }` — upload success. -/
  | jsonSuccess (message : String) (data : ImageRecord)
  /-- JSON array of records — listing success. -/
  | jsonRecords (records : List ImageRecord)
  /-- The page produced by Express's default error handler (no custom
  error-handling middleware is registered in `main.js`), carrying the
  error's message; the status it sends for a plain `Error` is 500. -/
  | expressDefaultError (msg : String)
  deriving DecidableEq

structure HttpResponse where
  status : Nat
  body : ResponseBody
  deriving DecidableEq

/-- `/uploads/${req.file.filename}` from the upload route. -/
def filePathOf (filename : String) : String :=
  "/uploads/" ++ filename

/-- Model of `POST /upload` in `main.js`: `upload.single('image')` runs
first; a multer error (filter rejection or size limit) bypasses the route
handler and reaches Express's default error handler, which responds 500.
Otherwise the handler returns 400 `{error: 'No file uploaded'}` when no
file field is present; else it submits
`{name, location: '/uploads/'+filename, mime_type}` to the store and
returns 200 with the created record, or 500
`{error: 'Failed to upload image', message}` when the store call throws.
The second component is the durable disk state after the request. -/
def uploadPost (reqFile : Option UploadedFile) (now rand : Nat)
    (storeRes : CreateResult) (disk : DiskState) : HttpResponse × DiskState :=
  match multerSingle disk reqFile now rand with
  | (MulterOutcome.noFile, d) =>
    (⟨400, ResponseBody.jsonErrorSimple "No file uploaded"⟩, d)
  | (MulterOutcome.filterError msg, d) =>
    (⟨500, ResponseBody.expressDefaultError msg⟩, d)
  | (MulterOutcome.sizeError, d) =>
    (⟨500, ResponseBody.expressDefaultError "File too large"⟩, d)
  | (MulterOutcome.fileAccepted f, d) =>
    match pbCreate storeRes f.originalname (filePathOf f.filename) f.mimetype with
    | Except.ok record =>
      (⟨200, ResponseBody.jsonSuccess "Image uploaded successfully" record⟩, d)
    | Except.error m =>
      (⟨500, ResponseBody.jsonErrorMsg "Failed to upload image" m⟩, d)

/-! ## Listing service: `GET /api/images` -/

/-- Model of `pb.collection('images').getFullList({ sort: '-created' })`:
PocketBase returns the full, unpaginated collection sorted by `created`
descending. -/
def pbGetFullListCreatedDesc (records : List ImageRecord) : List ImageRecord :=
  List.insertionSort (fun a b => b.created ≤ a.created) records

/-- Model of `GET /api/images` in `main.js`: on success the route returns
the store's full sorted list as JSON with status 200 (`res.json`); if the
store call throws, it returns 500
`{error: 'Failed to fetch images', message}`. -/
def apiImagesRoute (store : Except String (List ImageRecord)) : HttpResponse :=
  match store with
  | Except.ok records =>
    ⟨200, ResponseBody.jsonRecords (pbGetFullListCreatedDesc records)⟩
  | Except.error msg =>
    ⟨500, ResponseBody.jsonErrorMsg "Failed to fetch images" msg⟩

/-! ## Browser-side gallery (front-end `main.js`) -/

/-- Model of JavaScript's `String.prototype.startsWith`. -/
def jsStartsWith (s pre : String) : Bool :=
  pre.data.isPrefixOf s.data

/-- `escapeHtml` escapes one character the way a DOM text node is
serialized by `innerHTML`: `&`, `<`, `>` become entities, everything else
passes through. -/
def escapeChars : List Char → List Char
  | [] => []
  | c :: cs =>
    if c = '&' then '&' :: 'a' :: 'm' :: 'p' :: ';' :: escapeChars cs
    else if c = '<' then '&' :: 'l' :: 't' :: ';' :: escapeChars cs
    else if c = '>' then '&' :: 'g' :: 't' :: ';' :: escapeChars cs
    else c :: escapeChars cs

/-- The front-end `escapeHtml`: `div.textContent = text; return
div.innerHTML`, i.e. HTML text-node escaping of the input. -/
def escapeHtml (text : String) : String :=
  ⟨escapeChars text.data⟩

/-- `imageUrl` from `displayImages`: the record's `location`, prefixed
with `/` when it does not already start with one. -/
def imageUrl (image : ImageRecord) : String :=
  if jsStartsWith image.location "/" then image.location
  else "/" ++ image.location

/-- One gallery card, the template literal in `displayImages`. `fmtDate`
abstracts `formatDate` (locale-dependent date rendering). Note which
slots are escaped: `image.name` is interpolated raw into the `alt`
attribute and escaped (via `escapeHtml`) in the caption; `imageUrl` and
`image.mime_type` are interpolated raw. -/
def cardHtml (fmtDate : Nat → String) (image : ImageRecord) : String :=
  "\n      <div class=\"image-card\">\n        <img src=\"" ++ imageUrl image ++
  "\" alt=\"" ++ image.name ++ "\" loading=\"lazy\">\n        <div class=\"image-info\">\n          <p class=\"image-name\">" ++
  escapeHtml image.name ++ "</p>\n          <p class=\"image-meta\">" ++
  image.mime_type ++ " • " ++ fmtDate image.created ++
  "</p>\n        </div>\n      </div>\n    "

/-- `displayImages`: the innerHTML assigned to the gallery container
(`images.map(...).join('')`, or the empty-state paragraph). -/
def displayImages (fmtDate : Nat → String) (images : List ImageRecord) : String :=
  if images.length = 0 then "<p>No images uploaded yet.</p>"
  else String.join (images.map (cardHtml fmtDate))

/-- The static error markup assigned to the gallery container in the
`catch` branch of `loadImages`. -/
def galleryErrorHtml : String :=
  "<p class=\"error\">Failed to load images. Please try again later.</p>"

/-- `loadImages`: fetches `/api/images`; a non-2xx response throws, a
fetch or JSON-parse failure throws, and the `catch` branch renders the
static error markup; otherwise `displayImages` renders the records. The
result is the innerHTML assigned to the gallery container. -/
def loadImages (fmtDate : Nat → String)
    (fetchResult : Except String (List ImageRecord)) : String :=
  match fetchResult with
  | Except.error _ => galleryErrorHtml
  | Except.ok images => displayImages fmtDate images

/-! ## Auxiliary predicates used by the theorems -/

/-- The visible text of a markup string: everything outside `<...>` tags
(`inTag` tracks whether the scan is inside a tag). -/
def stripTagsAux : Bool → List Char → List Char
  | _, [] => []
  | inTag, c :: cs =>
    if c = '<' then stripTagsAux true cs
    else if c = '>' then stripTagsAux false cs
    else if inTag then stripTagsAux true cs
    else c :: stripTagsAux false cs

/-- The text rendered by a markup string, with tags removed. -/
def stripTags (s : String) : String :=
  ⟨stripTagsAux false s.data⟩

/-- Characters widely reserved or dangerous in filesystem paths: the path
separators, the NUL byte, and the Windows-reserved punctuation. -/
def dangerousPathChars : List Char :=
  ['/', '\\', Char.ofNat 0, ':', '*', '?', '"', '<', '>', '|']

/-- Whether a filename contains a character unsafe for a filesystem
path. -/
def containsDangerousChar (s : String) : Bool :=
  s.data.any (fun c => dangerousPathChars.contains c)

/-- The string starts with `/` and its second character, when present, is
not another `/`. -/
def startsWithExactlyOneSlash (s : String) : Bool :=
  (s.data.head? == some '/') && !(s.data.tail.head? == some '/')

/-- No raw `<` or `>` characters occur in the string. -/
def noAngleBrackets (s : String) : Bool :=
  s.data.all (fun c => c != '<' && c != '>')

/-- Every `&` in the character list is the head of one of the entities
`&amp;`, `&lt;`, `&gt;` — i.e. no raw ampersand survives. -/
inductive EntityEscaped : List Char → Prop
  | nil : EntityEscaped []
  | amp {r : List Char} : EntityEscaped r →
      EntityEscaped ('&' :: 'a' :: 'm' :: 'p' :: ';' :: r)
  | lt {r : List Char} : EntityEscaped r →
      EntityEscaped ('&' :: 'l' :: 't' :: ';' :: r)
  | gt {r : List Char} : EntityEscaped r →
      EntityEscaped ('&' :: 'g' :: 't' :: ';' :: r)
  | chr {c : Char} {r : List Char} : c ≠ '&' → EntityEscaped r →
      EntityEscaped (c :: r)

/-- The `created`-descending ordering used by the listing is total. -/
instance createdDescIsTotal :
    IsTotal ImageRecord (fun a b => b.created ≤ a.created) :=
  ⟨fun a b => Nat.le_total b.created a.created⟩

/-- The `created`-descending ordering used by the listing is transitive. -/
instance createdDescIsTrans :
    IsTrans ImageRecord (fun a b => b.created ≤ a.created) :=
  ⟨fun _ _ _ hab hbc => Nat.le_trans hbc hab⟩

/-! ## Helper lemmas -/

theorem contains_iff_mem {m : String} {l : List String} :
    l.contains m = true ↔ m ∈ l :=
  List.elem_iff

theorem contains_eq_false_of_not_mem {m : String} {l : List String}
    (h : m ∉ l) : l.contains m = false := by
  cases hq : l.contains m
  · rfl
  · exact absurd (contains_iff_mem.mp hq) h

/-! ## C1: the Upload Filter accepts exactly the four image MIME types -/

/-- C1: the Upload Filter accepts a declared MIME type iff it is one of
`image/jpeg`, `image/jpg`, `image/png`, `image/gif`; any other declared
MIME type is rejected with the descriptive error, and the middleware then
leaves the durable disk state untouched (no byte of the body is
persisted). -/
theorem fileFilter_accepts_iff_allowed (m : String) :
    (fileFilter m = FilterDecision.accept ↔ m ∈ allowedTypes) ∧
    (m ∉ allowedTypes →
      fileFilter m =
        FilterDecision.reject "Invalid file type. Only JPG, PNG, and GIF are allowed." ∧
      ∀ (disk : DiskState) (f : UploadedFile) (now rand : Nat),
        f.mimetype = m →
        multerSingle disk (some f) now rand =
          (MulterOutcome.filterError
            "Invalid file type. Only JPG, PNG, and GIF are allowed.", disk)) := by
  constructor
  · constructor
    · intro hacc
      by_contra hmem
      have hc := contains_eq_false_of_not_mem hmem
      simp [fileFilter, hc] at hacc
      exact hmem hacc
    · intro hmem
      simp [fileFilter]
      exact hmem
  · intro hmem
    have hc := contains_eq_false_of_not_mem hmem
    have hrej : fileFilter m =
        FilterDecision.reject "Invalid file type. Only JPG, PNG, and GIF are allowed." := by
      simp [fileFilter, hc]
      exact hmem
    refine ⟨hrej, ?_⟩
    intro disk f now rand hf
    have hff : fileFilter f.mimetype =
        FilterDecision.reject "Invalid file type. Only JPG, PNG, and GIF are allowed." := by
      rw [hf]; exact hrej
    simp [multerSingle, hff]

/-- Witness for C1: at the concrete declared MIME type `text/plain` the
filter rejects with the descriptive error and the disk is untouched. -/
theorem fileFilter_accepts_iff_allowed_witness :
    fileFilter "text/plain" =
      FilterDecision.reject "Invalid file type. Only JPG, PNG, and GIF are allowed." ∧
    multerSingle [] (some ⟨"notes.txt", "text/plain", 10⟩) 0 0 =
      (MulterOutcome.filterError
        "Invalid file type. Only JPG, PNG, and GIF are allowed.", []) := by
  have h := (fileFilter_accepts_iff_allowed "text/plain").2 (by decide)
  exact ⟨h.1, h.2 [] ⟨"notes.txt", "text/plain", 10⟩ 0 0 rfl⟩

/-! ## C2: what `POST /upload` actually answers for a `text/plain` file -/

/-- C2 (code behavior at the failing input): a `POST /upload` with a
`text/plain` file named `notes.txt` is answered with status 500 — the
filter's error reaches Express's default error handler, since `main.js`
registers no error-handling middleware that would map it to a 400-class
response — and zero bytes are written to disk (the disk state is
unchanged). The claim's 400-class `UnsupportedMediaType` response does
not occur. -/
theorem uploadPost_text_plain_returns_500 :
    uploadPost (some ⟨"notes.txt", "text/plain", 10⟩) 1700000000000 123456789
        (CreateResult.ok "rec1" 1 2) [] =
      (⟨500, ResponseBody.expressDefaultError
        "Invalid file type. Only JPG, PNG, and GIF are allowed."⟩, []) := by
  rfl

/-! ## C4: the location path -/

/-- C4: for every generated storage filename, the record's `location` is
the fixed `/uploads/` mount segment followed by the filename, and it
starts with exactly one leading slash whatever the filename is. -/
theorem filePath_single_leading_slash (fname : String) :
    filePathOf fname = "/uploads/" ++ fname ∧
    startsWithExactlyOneSlash (filePathOf fname) = true := by
  refine ⟨rfl, ?_⟩
  have h : (filePathOf fname).data = '/' :: 'u' :: ("ploads/".data ++ fname.data) := rfl
  simp only [startsWithExactlyOneSlash, h]
  rfl

/-! ## C7: metadata-store failure after the file is written -/

/-- C7: when the file was accepted and written but the store's `create`
call fails with message `msg`, the route answers 500 with
`{error: 'Failed to upload image', message: msg}` (the store's message),
and the already-written file stays on disk — it is not rolled back. -/
theorem metadata_failure_surfaces_500_keeps_file
    (f : UploadedFile) (now rand : Nat) (msg : String) (disk : DiskState)
    (hmime : f.mimetype ∈ allowedTypes) (hsize : f.size ≤ MAX_FILE_SIZE) :
    uploadPost (some f) now rand (CreateResult.fail msg) disk =
      (⟨500, ResponseBody.jsonErrorMsg "Failed to upload image" msg⟩,
       (storageFilename now rand f.originalname, f.size) :: disk) := by
  have hff : fileFilter f.mimetype = FilterDecision.accept := by
    simp [fileFilter]
    exact hmime
  have hlt : ¬ MAX_FILE_SIZE < f.size := Nat.not_lt.mpr hsize
  simp [uploadPost, multerSingle, hff, hlt, pbCreate]

/-- Witness for C7: a concrete accepted `cat.png` upload whose store call
fails with "store down" yields the 500 `{error, message}` response and the
written file remains on disk. -/
theorem metadata_failure_surfaces_500_keeps_file_witness :
    uploadPost (some ⟨"cat.png", "image/png", 5⟩) 1 2
        (CreateResult.fail "store down") [] =
      (⟨500, ResponseBody.jsonErrorMsg "Failed to upload image" "store down"⟩,
       [(storageFilename 1 2 "cat.png", 5)]) :=
  metadata_failure_surfaces_500_keeps_file ⟨"cat.png", "image/png", 5⟩ 1 2
    "store down" [] (by decide) (by decide)

/-! ## C8: the listing route -/

/-- C8: `GET /api/images` on a reachable store returns status 200 with the
full collection — a permutation of everything stored, no filtering, no
limit — ordered by `created` descending (most recent first); the empty
collection yields the empty array as a valid 200 result. -/
theorem apiImages_full_sorted_desc (records : List ImageRecord) :
    apiImagesRoute (Except.ok records) =
      ⟨200, ResponseBody.jsonRecords (pbGetFullListCreatedDesc records)⟩ ∧
    (pbGetFullListCreatedDesc records).Perm records ∧
    (pbGetFullListCreatedDesc records).Sorted (fun a b => b.created ≤ a.created) ∧
    apiImagesRoute (Except.ok []) = ⟨200, ResponseBody.jsonRecords []⟩ :=
  ⟨rfl, List.perm_insertionSort _ _, List.sorted_insertionSort _ _, rfl⟩

/-! ## C9: the gallery's failure rendering -/

/-- C9: whenever the front-end's API call fails (fetch/parse failure or a
non-2xx status, both of which throw into the `catch` branch), the gallery
container is set to the static error markup, whose rendered text is
exactly "Failed to load images. Please try again later." and nothing
else. -/
theorem loadImages_failure_renders_error_message
    (fmtDate : Nat → String) (errMsg : String) :
    loadImages fmtDate (Except.error errMsg) = galleryErrorHtml ∧
    galleryErrorHtml =
      "<p class=\"error\">Failed to load images. Please try again later.</p>" ∧
    stripTags galleryErrorHtml = "Failed to load images. Please try again later." := by
  refine ⟨rfl, rfl, ?_⟩
  decide

/-! ## Helper lemmas about takeWhile/dropWhile -/

theorem dropWhile_eq_self_of_all {p : Char → Bool} {l : List Char}
    (h : ∀ c ∈ l, p c = false) : l.dropWhile p = l := by
  cases l with
  | nil => rfl
  | cons a t =>
    exact List.dropWhile_cons_of_neg (by simp [h a (List.mem_cons_self a t)])

theorem takeWhile_eq_self_of_all {p : Char → Bool} {l : List Char}
    (h : ∀ c ∈ l, p c = true) : l.takeWhile p = l := by
  induction l with
  | nil => rfl
  | cons a t ih =>
    rw [List.takeWhile_cons_of_pos (h a (List.mem_cons_self a t)),
      ih (fun c hc => h c (List.mem_cons_of_mem a hc))]

theorem takeWhile_append_of_all {p : Char → Bool} {l₁ l₂ : List Char}
    (h : ∀ c ∈ l₁, p c = true) :
    (l₁ ++ l₂).takeWhile p = l₁ ++ l₂.takeWhile p := by
  induction l₁ with
  | nil => rfl
  | cons a t ih =>
    rw [List.cons_append, List.takeWhile_cons_of_pos (h a (List.mem_cons_self a t)),
      ih (fun c hc => h c (List.mem_cons_of_mem a hc)), List.cons_append]

/-! ## Structure of `extnameChars` -/

theorem extnameChars_expand (p : List Char) :
    extnameChars p =
      if ((baseRevOf p).takeWhile (fun c => c != '.')).length = (baseRevOf p).length then []
      else if ((baseRevOf p).takeWhile (fun c => c != '.')).length + 1 = (baseRevOf p).length then []
      else if baseRevOf p = ['.', '.'] then []
      else '.' :: ((baseRevOf p).takeWhile (fun c => c != '.')).reverse := rfl

/-- A computed extension is empty or a dot followed by characters that are
neither dots nor slashes. -/
theorem extnameChars_shape (q : List Char) :
    extnameChars q = [] ∨
      ∃ t, extnameChars q = '.' :: t ∧ ∀ c ∈ t, c ≠ '.' ∧ c ≠ '/' := by
  rw [extnameChars_expand]
  by_cases h1 : ((baseRevOf q).takeWhile (fun c => c != '.')).length = (baseRevOf q).length
  · left; simp [h1]
  · by_cases h2 :
      ((baseRevOf q).takeWhile (fun c => c != '.')).length + 1 = (baseRevOf q).length
    · left; simp [h1, h2]
    · by_cases h3 : baseRevOf q = ['.', '.']
      · left; simp [h1, h2, h3]
      · right
        refine ⟨((baseRevOf q).takeWhile (fun c => c != '.')).reverse,
          by simp [h1, h2, h3], ?_⟩
        intro c hc
        rw [List.mem_reverse] at hc
        have hdot := List.mem_takeWhile_imp hc
        refine ⟨bne_iff_ne.mp hdot, ?_⟩
        have hmem : c ∈ (q.reverse.dropWhile (fun c => c == '/')).takeWhile
            (fun c => c != '/') :=
          (List.takeWhile_sublist _).subset hc
        have hsl := List.mem_takeWhile_imp hmem
        exact bne_iff_ne.mp hsl

/-- Prepending a nonempty slash-free dot-free chunk in front of a computed
extension does not change the computed extension. -/
theorem extnameChars_prepend_keeps (pre q : List Char) (hne : pre ≠ [])
    (hsafe : ∀ c ∈ pre, c ≠ '/' ∧ c ≠ '.') :
    extnameChars (pre ++ extnameChars q) = extnameChars q := by
  have hrevsafe : ∀ c ∈ pre.reverse, c ≠ '/' ∧ c ≠ '.' :=
    fun c hc => hsafe c (List.mem_reverse.mp hc)
  rcases extnameChars_shape q with hnil | ⟨t, ht, htc⟩
  · rw [hnil, List.append_nil]
    have hbase : baseRevOf pre = pre.reverse := by
      unfold baseRevOf
      rw [dropWhile_eq_self_of_all (fun c hc => by simp [(hrevsafe c hc).1]),
        takeWhile_eq_self_of_all (fun c hc => by simp [(hrevsafe c hc).1])]
    rw [extnameChars_expand, hbase,
      takeWhile_eq_self_of_all (fun c hc => by simp [(hrevsafe c hc).2])]
    simp
  · rw [ht]
    have hb : baseRevOf (pre ++ '.' :: t) = t.reverse ++ '.' :: pre.reverse := by
      unfold baseRevOf
      rw [List.reverse_append, List.reverse_cons, List.append_assoc,
        List.singleton_append]
      have hall : ∀ c ∈ t.reverse ++ '.' :: pre.reverse, c ≠ '/' := by
        intro c hc
        rcases List.mem_append.mp hc with h | h
        · exact (htc c (List.mem_reverse.mp h)).2
        · rcases List.mem_cons.mp h with rfl | h
          · decide
          · exact (hrevsafe c h).1
      rw [dropWhile_eq_self_of_all (fun c hc => by simp [hall c hc]),
        takeWhile_eq_self_of_all (fun c hc => by simp [hall c hc])]
    have hafter : (t.reverse ++ '.' :: pre.reverse).takeWhile (fun c => c != '.')
        = t.reverse := by
      rw [takeWhile_append_of_all
          (fun c hc => by simp [(htc c (List.mem_reverse.mp hc)).1]),
        List.takeWhile_cons_of_neg (by simp), List.append_nil]
    have hpre0 : 0 < pre.length := List.length_pos.mpr hne
    have hA : ¬ ((t.reverse).length = (t.reverse ++ '.' :: pre.reverse).length) := by
      simp only [List.length_append, List.length_reverse, List.length_cons]
      omega
    have hB : ¬ ((t.reverse).length + 1 = (t.reverse ++ '.' :: pre.reverse).length) := by
      simp only [List.length_append, List.length_reverse, List.length_cons]
      omega
    have hC : ¬ (t.reverse ++ '.' :: pre.reverse = ['.', '.']) := by
      intro heq
      have hl := congrArg List.length heq
      simp only [List.length_append, List.length_reverse, List.length_cons,
        List.length_nil] at hl
      have htl : t.length = 0 := by omega
      have ht0 : t.reverse = [] := by
        have : t.reverse.length = 0 := by simp [htl]
        exact List.eq_nil_of_length_eq_zero this
      rw [ht0, List.nil_append] at heq
      injection heq with hhead htail
      have hdot : '.' ∈ pre := by
        rw [← List.mem_reverse, htail]
        exact List.mem_singleton.mpr rfl
      exact (hsafe '.' hdot).2 rfl
    rw [extnameChars_expand, hb, hafter, if_neg hA, if_neg hB, if_neg hC,
      List.reverse_reverse]

/-! ## Digits of `toString` for naturals -/

theorem digitChar_mod10_isDigit (n : Nat) : (Nat.digitChar (n % 10)).isDigit = true := by
  have h : n % 10 < 10 := Nat.mod_lt _ (by decide)
  have hall : ∀ m, m < 10 → (Nat.digitChar m).isDigit = true := by decide
  exact hall _ h

theorem toDigitsCore_isDigit :
    ∀ (fuel n : Nat) (ds : List Char),
      (∀ c ∈ ds, c.isDigit = true) →
      ∀ c ∈ Nat.toDigitsCore 10 fuel n ds, c.isDigit = true := by
  intro fuel
  induction fuel with
  | zero => intro n ds hds c hc; exact hds c hc
  | succ f ih =>
    intro n ds hds c hc
    have hcons : ∀ c ∈ Nat.digitChar (n % 10) :: ds, c.isDigit = true := by
      intro x hx
      rcases List.mem_cons.mp hx with rfl | hx'
      · exact digitChar_mod10_isDigit n
      · exact hds x hx'
    by_cases hz : n / 10 = 0
    · have heq : Nat.toDigitsCore 10 (f + 1) n ds = Nat.digitChar (n % 10) :: ds := by
        simp [Nat.toDigitsCore, hz]
      rw [heq] at hc
      exact hcons c hc
    · have heq : Nat.toDigitsCore 10 (f + 1) n ds
          = Nat.toDigitsCore 10 f (n / 10) (Nat.digitChar (n % 10) :: ds) := by
        simp [Nat.toDigitsCore, hz]
      rw [heq] at hc
      exact ih (n / 10) (Nat.digitChar (n % 10) :: ds) hcons c hc

theorem toString_nat_digits (n : Nat) :
    ∀ c ∈ (toString n : String).data, c.isDigit = true := by
  intro c hc
  have h : (toString n : String).data = Nat.toDigitsCore 10 (n + 1) n [] := rfl
  rw [h] at hc
  exact toDigitsCore_isDigit (n + 1) n []
    (fun x hx => absurd hx (List.not_mem_nil x)) c hc

theorem toDigitsCore_ne_nil :
    ∀ (fuel n : Nat) (ds : List Char), ds ≠ [] →
      Nat.toDigitsCore 10 fuel n ds ≠ [] := by
  intro fuel
  induction fuel with
  | zero => intro n ds h; exact h
  | succ f ih =>
    intro n ds h
    by_cases hz : n / 10 = 0
    · simp [Nat.toDigitsCore, hz]
    · have heq : Nat.toDigitsCore 10 (f + 1) n ds
          = Nat.toDigitsCore 10 f (n / 10) (Nat.digitChar (n % 10) :: ds) := by
        simp [Nat.toDigitsCore, hz]
      rw [heq]
      exact ih (n / 10) _ (List.cons_ne_nil _ _)

theorem toString_nat_ne_nil (n : Nat) : (toString n : String).data ≠ [] := by
  have h : (toString n : String).data = Nat.toDigitsCore 10 (n + 1) n [] := rfl
  rw [h]
  by_cases hz : n / 10 = 0
  · simp [Nat.toDigitsCore, hz]
  · have heq : Nat.toDigitsCore 10 (n + 1) n []
        = Nat.toDigitsCore 10 n (n / 10) [Nat.digitChar (n % 10)] := by
      simp [Nat.toDigitsCore, hz]
    rw [heq]
    exact toDigitsCore_ne_nil n (n / 10) _ (List.cons_ne_nil _ _)

/-! ## The timestamp-dash-random prefix is filesystem-safe -/

theorem isDigit_safe (c : Char) (h : c.isDigit = true) :
    c ≠ '/' ∧ c ≠ '.' ∧ dangerousPathChars.contains c = false := by
  refine ⟨fun heq => by rw [heq] at h; exact absurd h (by decide),
    fun heq => by rw [heq] at h; exact absurd h (by decide), ?_⟩
  cases hq : dangerousPathChars.contains c with
  | false => rfl
  | true =>
    have hmem : c ∈ dangerousPathChars := List.elem_iff.mp hq
    revert h
    fin_cases hmem <;> decide

theorem storage_prefix_data (now rand : Nat) :
    (toString now ++ "-" ++ toString rand : String).data
      = (toString now : String).data ++ '-' :: (toString rand : String).data := by
  rw [String.data_append, String.data_append, List.append_assoc]
  rfl

theorem storage_prefix_safe (now rand : Nat) :
    ∀ c ∈ (toString now ++ "-" ++ toString rand : String).data,
      c ≠ '/' ∧ c ≠ '.' ∧ dangerousPathChars.contains c = false := by
  intro c hc
  rw [storage_prefix_data] at hc
  rcases List.mem_append.mp hc with h | h
  · exact isDigit_safe c (toString_nat_digits now c h)
  · rcases List.mem_cons.mp h with rfl | h'
    · exact ⟨by decide, by decide, by decide⟩
    · exact isDigit_safe c (toString_nat_digits rand c h')

theorem storage_prefix_ne_nil (now rand : Nat) :
    (toString now ++ "-" ++ toString rand : String).data ≠ [] := by
  rw [storage_prefix_data]
  intro h
  rcases List.append_eq_nil.mp h with ⟨_, h2⟩
  exact List.cons_ne_nil _ _ h2

/-! ## C3: the size ceiling -/

/-- C3 counterexample: an upload whose size exceeds the 10 MiB ceiling but
whose declared MIME type is disallowed is rejected by the filter — which
multer consults before the size limit can trigger — so the error kind is
the filter's `UnsupportedMediaType`-style error, not the claimed
`FileTooLarge` kind. -/
theorem oversize_bad_mime_not_size_error :
    MAX_FILE_SIZE < (10485761 : Nat) ∧
    (multerSingle [] (some ⟨"notes.txt", "text/plain", 10485761⟩) 0 0).1 =
      MulterOutcome.filterError "Invalid file type. Only JPG, PNG, and GIF are allowed." ∧
    ((multerSingle [] (some ⟨"notes.txt", "text/plain", 10485761⟩) 0 0).1 ==
      MulterOutcome.sizeError) = false := by
  exact ⟨by decide, rfl, by decide⟩

/-- C3 amended: every upload whose size exceeds the 10 MiB ceiling is
rejected and leaves the durable disk state untouched; the error kind is
`FileTooLarge` (`LIMIT_FILE_SIZE`) when the declared MIME type passes the
filter, and the filter's `UnsupportedMediaType`-style error otherwise,
because the filter runs first. -/
theorem oversize_upload_rejected_no_write
    (f : UploadedFile) (now rand : Nat) (disk : DiskState)
    (hsize : MAX_FILE_SIZE < f.size) :
    (multerSingle disk (some f) now rand).2 = disk ∧
    (f.mimetype ∈ allowedTypes →
      (multerSingle disk (some f) now rand).1 = MulterOutcome.sizeError) ∧
    (f.mimetype ∉ allowedTypes →
      (multerSingle disk (some f) now rand).1 =
        MulterOutcome.filterError
          "Invalid file type. Only JPG, PNG, and GIF are allowed.") := by
  by_cases hm : f.mimetype ∈ allowedTypes
  · have hff : fileFilter f.mimetype = FilterDecision.accept := by
      simp [fileFilter]
      exact hm
    refine ⟨?_, fun _ => ?_, fun hnm => absurd hm hnm⟩
    · simp [multerSingle, hff, hsize]
    · simp [multerSingle, hff, hsize]
  · have hff : fileFilter f.mimetype =
        FilterDecision.reject "Invalid file type. Only JPG, PNG, and GIF are allowed." := by
      simp [fileFilter, contains_eq_false_of_not_mem hm]
      exact hm
    refine ⟨?_, fun hmem => absurd hmem hm, fun _ => ?_⟩
    · simp [multerSingle, hff]
    · simp [multerSingle, hff]

/-- Witness for C3 (amended) at a concrete 10 MiB + 1 byte `image/png`
upload: rejected with the size-limit kind, disk untouched. -/
theorem oversize_upload_rejected_no_write_witness :
    (multerSingle [] (some ⟨"big.png", "image/png", 10485761⟩) 0 0).2 = [] ∧
    (multerSingle [] (some ⟨"big.png", "image/png", 10485761⟩) 0 0).1 =
      MulterOutcome.sizeError := by
  have h := oversize_upload_rejected_no_write
    ⟨"big.png", "image/png", 10485761⟩ 0 0 [] (by decide)
  exact ⟨h.1, h.2.1 (by decide)⟩

/-! ## C5: structure of the generated storage filename -/

/-- C5: the storage filename is the millisecond timestamp, the `-`
separator, the random draw, and the original file's extension,
concatenated in that order; the extension of the generated filename is
exactly the extension of the original name (the original extension is
preserved). -/
theorem storageFilename_structure_preserves_extension
    (now rand : Nat) (name : String) :
    storageFilename now rand name =
      toString now ++ "-" ++ toString rand ++ extname name ∧
    extname (storageFilename now rand name) = extname name := by
  refine ⟨rfl, ?_⟩
  show String.mk (extnameChars
      ((toString now ++ "-" ++ toString rand : String).data ++ extnameChars name.data))
    = String.mk (extnameChars name.data)
  exact congrArg String.mk
    (extnameChars_prepend_keeps _ _ (storage_prefix_ne_nil now rand)
      (fun c hc => ⟨(storage_prefix_safe now rand c hc).1,
        (storage_prefix_safe now rand c hc).2.1⟩))

/-! ## C6: filesystem-unsafe characters in the storage filename -/

/-- C6 counterexample: the client-supplied original filename `a.b<c` has
extension `.b<c`, which the Filename Generator copies verbatim, so the
storage filename contains the filesystem-unsafe character `<`. -/
theorem storageFilename_dangerous_char_example :
    containsDangerousChar (storageFilename 1763578360378 911074405 "a.b<c") = true := by
  decide

/-- C6 amended: the storage filename contains a filesystem-unsafe
character exactly when the original filename's extension does — the
generated timestamp-dash-random prefix consists of digits and `-` only
and never contributes an unsafe character, but the extension is copied
from the client without sanitization. -/
theorem storageFilename_dangerous_iff_extension (now rand : Nat) (name : String) :
    containsDangerousChar (storageFilename now rand name) =
      containsDangerousChar (extname name) := by
  unfold containsDangerousChar
  have hdata : (storageFilename now rand name).data
      = (toString now ++ "-" ++ toString rand : String).data ++ (extname name).data := by
    show (toString now ++ "-" ++ toString rand ++ extname name : String).data = _
    rw [String.data_append]
  rw [hdata, List.any_append]
  have hpre : ((toString now ++ "-" ++ toString rand : String).data.any
      (fun c => dangerousPathChars.contains c)) = false := by
    rw [List.any_eq_false]
    intro x hx hmem
    have hmem2 : dangerousPathChars.contains x = true := hmem
    rw [(storage_prefix_safe now rand x hx).2.2] at hmem2
    exact Bool.false_ne_true hmem2
  rw [hpre, Bool.false_or]

/-! ## C10: escaping in the gallery cards -/

theorem escapeChars_noAngle (l : List Char) :
    (escapeChars l).all (fun c => c != '<' && c != '>') = true := by
  induction l with
  | nil => rfl
  | cons c cs ih =>
    simp only [escapeChars]
    by_cases h1 : c = '&'
    · rw [if_pos h1]
      simp [List.all_cons, ih]
    · rw [if_neg h1]
      by_cases h2 : c = '<'
      · rw [if_pos h2]
        simp [List.all_cons, ih]
      · rw [if_neg h2]
        by_cases h3 : c = '>'
        · rw [if_pos h3]
          simp [List.all_cons, ih]
        · rw [if_neg h3]
          simp [List.all_cons, ih]
          exact ⟨h2, h3⟩

theorem escapeChars_entityEscaped (l : List Char) : EntityEscaped (escapeChars l) := by
  induction l with
  | nil => exact EntityEscaped.nil
  | cons c cs ih =>
    simp only [escapeChars]
    by_cases h1 : c = '&'
    · rw [if_pos h1]; exact EntityEscaped.amp ih
    · rw [if_neg h1]
      by_cases h2 : c = '<'
      · rw [if_pos h2]; exact EntityEscaped.lt ih
      · rw [if_neg h2]
        by_cases h3 : c = '>'
        · rw [if_pos h3]; exact EntityEscaped.gt ih
        · rw [if_neg h3]; exact EntityEscaped.chr h1 ih

/-- C10 counterexample: for a record named `<b>`, the rendered card
contains the name raw (unescaped) inside the `alt` attribute — the second
interpolation of `image.name` in the template does not go through
`escapeHtml`, whose output for this name would have been `&lt;b&gt;`. -/
theorem cardHtml_raw_name_in_alt :
    cardHtml (fun _ => "D") ⟨"id1", "<b>", "/x.png", "image/png", 0, 0⟩ =
      "\n      <div class=\"image-card\">\n        <img src=\"/x.png\" alt=\"" ++ "<b>" ++
      "\" loading=\"lazy\">\n        <div class=\"image-info\">\n          <p class=\"image-name\">&lt;b&gt;</p>\n          <p class=\"image-meta\">image/png • D</p>\n        </div>\n      </div>\n    " ∧
    escapeHtml "<b>" = "&lt;b&gt;" := by
  exact ⟨rfl, rfl⟩

/-- C10 amended: in every rendered card the record's name is HTML-escaped
where it is shown in the image-name caption — `escapeHtml`'s output
contains no raw `<` or `>` and every `&` in it heads an escape entity —
but the name is also interpolated raw (unescaped) into the `img` `alt`
attribute, and `mime_type` and the location-derived URL are interpolated
without escaping. -/
theorem cardHtml_escapes_name_in_caption_only
    (fmtDate : Nat → String) (r : ImageRecord) :
    cardHtml fmtDate r =
      "\n      <div class=\"image-card\">\n        <img src=\"" ++ imageUrl r ++
      "\" alt=\"" ++ r.name ++
      "\" loading=\"lazy\">\n        <div class=\"image-info\">\n          <p class=\"image-name\">" ++
      escapeHtml r.name ++ "</p>\n          <p class=\"image-meta\">" ++
      r.mime_type ++ " • " ++ fmtDate r.created ++
      "</p>\n        </div>\n      </div>\n    " ∧
    noAngleBrackets (escapeHtml r.name) = true ∧
    EntityEscaped (escapeHtml r.name).data :=
  ⟨rfl, escapeChars_noAngle r.name.data, escapeChars_entityEscaped r.name.data⟩

end ImageUploader
